import Mathlib

/-!
Shallow embedding of the file-management request handlers of `src/files.py`
(a Flask blueprint coordinating a blob directory `uploads/` with SQLAlchemy
records `Docente`, `Materia`, `Curso`, `Archivo`).

Embedding conventions:
* File bytes are `List Nat`; timestamps (`datetime.utcnow()`) are a `Nat`
  passed in as `now`; the authenticated `current_user.id` is a `Nat` passed
  in as `uid`.
* The Blob Store (the `uploads/` directory) is an association list from
  filename to bytes; `os.path.exists` is `blobLookup`, `file.save` is
  `blobSave` (create-or-overwrite), `os.remove` is `blobErase`, `os.rename`
  is `blobRenameOp`.
* The Metadata Store is a `DB` record of entity lists together with
  id counters standing for the primary-key sequences that `db.session.flush()`
  draws from.  A SQLAlchemy session is compute-then-commit: each handler
  computes the candidate post-commit `DB`; `db.session.commit()` either
  installs it or (failure injected through the `commitOk` flag, covering both
  `IntegrityError` and any other commit-time exception, whose handlers in the
  source perform the same rollback) discards it, which is `db.session.rollback()`.
* `werkzeug.secure_filename` is external library code and is passed in as an
  arbitrary `sanitize : String → String`.
* `ilike` with a `%...%` pattern is modelled, per its contract, as
  case-insensitive substring containment.
-/

/-- Bytes of a stored file. -/
abbrev Bytes := List Nat

/-- Row of the `Docente` table (teacher; referenced, never created, here). -/
structure Docente where
  id : Nat
  nombre : String
deriving DecidableEq, Repr

/-- Row of the `Materia` table (subject, unique name). -/
structure Materia where
  id : Nat
  nombre : String
deriving DecidableEq, Repr

/-- Row of the `Curso` table (teacher + subject + period instance). -/
structure Curso where
  id : Nat
  docente_id : Nat
  materia_id : Nat
  periodo : String
deriving DecidableEq, Repr

/-- Row of the `Archivo` table (file record, keyed by `nombre`). -/
structure Archivo where
  nombre : String
  fecha_subida : Nat
  docente_id : Nat
  curso_id : Nat
deriving DecidableEq, Repr

/-- The Metadata Store: the four tables plus the primary-key counters that
`db.session.flush()` assigns new `Materia` and `Curso` ids from. -/
structure DB where
  docentes : List Docente
  materias : List Materia
  cursos : List Curso
  archivos : List Archivo
  nextMateriaId : Nat
  nextCursoId : Nat
deriving DecidableEq, Repr

/-- Whole-system state: Metadata Store plus the Blob Store directory. -/
structure AppState where
  db : DB
  blobs : List (String × Bytes)
deriving DecidableEq, Repr

/-- Blob Store read / existence check (`os.path.exists`, reading the file). -/
def blobLookup (bs : List (String × Bytes)) (k : String) : Option Bytes :=
  (bs.find? (fun p => p.1 == k)).map (fun p => p.2)

/-- Blob Store delete (`os.remove`, also used to normalise writes). -/
def blobErase (bs : List (String × Bytes)) (k : String) : List (String × Bytes) :=
  bs.filter (fun p => ¬ p.1 == k)

/-- Blob Store write, create-or-overwrite (`file.save(filepath)`). -/
def blobSave (bs : List (String × Bytes)) (k : String) (v : Bytes) : List (String × Bytes) :=
  blobErase bs k ++ [(k, v)]

/-- Blob Store rename (`os.rename(old, new)`); no-op when `old` is absent. -/
def blobRenameOp (bs : List (String × Bytes)) (old new : String) : List (String × Bytes) :=
  match blobLookup bs old with
  | some v => blobSave (blobErase bs old) new v
  | none => bs

/-- Truthiness test Python applies to an optional form/JSON string field:
`not x` is true when the field is absent or the empty string. -/
def falsy (o : Option String) : Bool :=
  match o with
  | none => true
  | some v => v == ""

/-- Check that the first character list starts with the second. -/
def startsWithChars : List Char → List Char → Bool
  | _, [] => true
  | [], _ :: _ => false
  | a :: as, b :: bs => a == b && startsWithChars as bs

/-- Check that the second character list occurs contiguously in the first. -/
def containsChars : List Char → List Char → Bool
  | [], needle => needle.isEmpty
  | c :: rest, needle => startsWithChars (c :: rest) needle || containsChars rest needle

/-- Python `str.strip()`: drop leading and trailing whitespace. -/
def stripStr (s : String) : String :=
  String.mk (((s.toList.dropWhile Char.isWhitespace).reverse.dropWhile
    Char.isWhitespace).reverse)

/-- Python `str.lower()` (also used to model the case folding of `ilike`). -/
def lowerStr (s : String) : String :=
  String.mk (s.toList.map Char.toLower)

/-- Python `str.endswith(suffix)`. -/
def strEndsWith (s suffix : String) : Bool :=
  startsWithChars s.toList.reverse suffix.toList.reverse

/-- Lookup-or-create of the `Materia` by exact name
(`Materia.query.filter_by(nombre=...).first()` then `add` + `flush`). -/
def resolveMateria (db : DB) (nombre_materia : String) : Materia × DB :=
  match db.materias.find? (fun m => m.nombre == nombre_materia) with
  | some m => (m, db)
  | none =>
    let m : Materia := { id := db.nextMateriaId, nombre := nombre_materia }
    (m, { db with materias := db.materias ++ [m], nextMateriaId := db.nextMateriaId + 1 })

/-- Lookup-or-create of the `Curso` by the (teacher, subject, period) triple
(`Curso.query.filter_by(docente_id=..., materia_id=..., periodo=...).first()`
then `add` + `flush`). -/
def resolveCurso (db : DB) (uid : Nat) (materia_id : Nat) (periodo : String) : Curso × DB :=
  match db.cursos.find? (fun c =>
      c.docente_id == uid && c.materia_id == materia_id && c.periodo == periodo) with
  | some c => (c, db)
  | none =>
    let c : Curso := { id := db.nextCursoId, docente_id := uid,
                       materia_id := materia_id, periodo := periodo }
    (c, { db with cursos := db.cursos ++ [c], nextCursoId := db.nextCursoId + 1 })

/-- Update of the single ORM object returned by
`Archivo.query.filter_by(nombre=filename).first()`: timestamp, owning teacher
and owning course are reassigned in place. -/
def updateFirstArchivo (fn : String) (now uid cid : Nat) : List Archivo → List Archivo
  | [] => []
  | a :: rest =>
    if a.nombre == fn then
      { a with fecha_subida := now, docente_id := uid, curso_id := cid } :: rest
    else
      a :: updateFirstArchivo fn now uid cid rest

/-- Rename of the single ORM object returned by
`Archivo.query.filter_by(nombre=old_name).first()`. -/
def renameFirstArchivo (old_name new_name : String) : List Archivo → List Archivo
  | [] => []
  | a :: rest =>
    if a.nombre == old_name then { a with nombre := new_name } :: rest
    else a :: renameFirstArchivo old_name new_name rest

/-- Outcome of the `/upload` handler. -/
inductive UploadResult where
  /-- 400: "No se encontró el archivo o el nombre está vacío." -/
  | missingFile
  /-- 400: "Faltan datos de Materia o Periodo." -/
  | missingData
  /-- 200 with the confirmation text. -/
  | ok (mensaje : String)
  /-- 500 after rollback (both the `IntegrityError` handler and the generic
  exception handler roll back and remove the just-written blob). -/
  | dbError
deriving DecidableEq, Repr

/-- The `/upload` handler (`upload` in `src/files.py`).  `file?` is
`request.files.get('file')` as an original filename plus payload;
`materia_raw?` and `periodo_raw?` are the two form fields; `commitOk`
injects success or failure of the metadata commit. -/
def upload (sanitize : String → String) (uid : Nat) (now : Nat)
    (file? : Option (String × Bytes)) (materia_raw? periodo_raw? : Option String)
    (commitOk : Bool) (s : AppState) : UploadResult × AppState :=
  match file? with
  | none => (UploadResult.missingFile, s)
  | some (orig_filename, payload) =>
    if orig_filename == "" then (UploadResult.missingFile, s)
    else if falsy materia_raw? || falsy periodo_raw? then (UploadResult.missingData, s)
    else
      let nombre_materia := stripStr (materia_raw?.getD "")
      let periodo := stripStr (periodo_raw?.getD "")
      let filename := sanitize orig_filename
      let r1 := resolveMateria s.db nombre_materia
      let r2 := resolveCurso r1.2 uid r1.1.id periodo
      let blobs1 := blobSave s.blobs filename payload
      let existed := (r2.2.archivos.find? (fun a => a.nombre == filename)).isSome
      let archivos3 :=
        if existed then updateFirstArchivo filename now uid r2.1.id r2.2.archivos
        else r2.2.archivos ++
          [{ nombre := filename, fecha_subida := now, docente_id := uid, curso_id := r2.1.id }]
      let mensaje :=
        if existed then
          "Archivo actualizado y asignado a " ++ r1.1.nombre ++ " - " ++ periodo ++ "."
        else
          "Archivo subido y asignado a " ++ r1.1.nombre ++ " - " ++ periodo ++ "."
      if commitOk then
        (UploadResult.ok mensaje, { db := { r2.2 with archivos := archivos3 }, blobs := blobs1 })
      else
        (UploadResult.dbError, { db := s.db, blobs := blobErase blobs1 filename })

/-- Case-insensitive-ready substring containment, the contract of
`column.ilike("%q%")` (the Metadata Store's substring filter). -/
def strContains (hay needle : String) : Bool :=
  containsChars hay.toList needle.toList

/-- Row shape produced by the `/list` join. `fecha_subida` is kept as the raw
timestamp (the handler formats it with `strftime` for display only). -/
structure FileRow where
  nombre : String
  fecha_subida : Nat
  docente : String
  materia : String
  periodo : String
  etiqueta_curso : String
deriving DecidableEq, Repr

/-- Inner join of one `Archivo` row with `Docente`, `Curso` and `Materia`
(`join(Docente, ...)`, `join(Curso, ...)`, `join(Materia, ...)`); rows whose
foreign keys do not resolve are dropped by the inner join. -/
def joinRow (db : DB) (a : Archivo) : Option FileRow :=
  match db.docentes.find? (fun d => d.id == a.docente_id) with
  | none => none
  | some d =>
    match db.cursos.find? (fun c => c.id == a.curso_id) with
    | none => none
    | some c =>
      match db.materias.find? (fun m => m.id == c.materia_id) with
      | none => none
      | some m =>
        some { nombre := a.nombre, fecha_subida := a.fecha_subida,
               docente := d.nombre, materia := m.nombre, periodo := c.periodo,
               etiqueta_curso := m.nombre ++ " (" ++ c.periodo ++ ")" }

/-- All joined rows of the `/list` query, before filtering and ordering. -/
def joinRows (db : DB) : List FileRow :=
  db.archivos.filterMap (joinRow db)

/-- Search filter of `/list`: the (already lowercased) query must appear in
filename, subject name, or period, case-insensitively (`ilike`). -/
def rowMatches (q : String) (r : FileRow) : Bool :=
  strContains (lowerStr r.nombre) q || strContains (lowerStr r.materia) q ||
    strContains (lowerStr r.periodo) q

/-- Single step of ordering by `Archivo.fecha_subida.desc()`. -/
def insertByFecha (r : FileRow) : List FileRow → List FileRow
  | [] => [r]
  | x :: xs =>
    if x.fecha_subida ≤ r.fecha_subida then r :: x :: xs
    else x :: insertByFecha r xs

/-- Ordering by `Archivo.fecha_subida.desc()` (most recent first). -/
def sortByFechaDesc : List FileRow → List FileRow
  | [] => []
  | x :: xs => insertByFecha x (sortByFechaDesc xs)

/-- The `/list` handler (`list_files` in `src/files.py`): join, optional
case-insensitive search filter, order newest-first, then drop rows whose
physical blob is missing (`os.path.exists` check in the loop). -/
def list_files (search_raw? : Option String) (s : AppState) : List FileRow :=
  let search_query := lowerStr (search_raw?.getD "")
  let rows0 := joinRows s.db
  let rows1 := if search_query == "" then rows0 else rows0.filter (rowMatches search_query)
  let rows2 := sortByFechaDesc rows1
  rows2.filter (fun r => (blobLookup s.blobs r.nombre).isSome)

/-- Outcome of `send_from_directory`: the blob streamed with the requested
disposition, or a 404. -/
inductive SendResult where
  | stream (content : Bytes) (as_attachment : Bool)
  | notFound
deriving DecidableEq, Repr

/-- Behaviour of `send_from_directory(UPLOAD_FOLDER, filename, ...)`. -/
def send_from_directory (bs : List (String × Bytes)) (fn : String)
    (as_attachment : Bool) : SendResult :=
  match blobLookup bs fn with
  | some c => SendResult.stream c as_attachment
  | none => SendResult.notFound

/-- The `/view/<filename>` handler (`view_file`): inline stream or 404.
`uid` is the authenticated teacher the framework supplies to every handler. -/
def view_file (uid : Nat) (filename : String) (s : AppState) : SendResult :=
  send_from_directory s.blobs filename false

/-- The `/downloads/<filename>` handler (`download_file`): attachment or 404. -/
def download_file (uid : Nat) (filename : String) (s : AppState) : SendResult :=
  send_from_directory s.blobs filename true

/-- The `/delete/<filename>` handler (`delete_file`): delete-and-commit the
record first when present, then remove the blob; the response is the
(message, HTTP status) pair the source returns. -/
def delete_file (uid : Nat) (filename : String) (s : AppState) :
    (String × Nat) × AppState :=
  let db1 :=
    if (s.db.archivos.find? (fun a => a.nombre == filename)).isSome then
      { s.db with archivos := s.db.archivos.eraseP (fun a => a.nombre == filename) }
    else s.db
  if (blobLookup s.blobs filename).isSome then
    (("Archivo eliminado correctamente.", 200),
     { db := db1, blobs := blobErase s.blobs filename })
  else
    (("Registro eliminado, pero el archivo físico no fue encontrado.", 202),
     { db := db1, blobs := s.blobs })

/-- New target name of a rename: sanitize, then append ".pdf" unless the
lowercased sanitized name already ends with it. -/
def finalNewName (sanitize : String → String) (new_name_raw : String) : String :=
  let clean_new_name := sanitize new_name_raw
  if strEndsWith (lowerStr clean_new_name) ".pdf" then clean_new_name
  else clean_new_name ++ ".pdf"

/-- Outcome of the `/rename` handler. -/
inductive RenameResult where
  /-- 400: "Se requiere el nombre antiguo y el nuevo nombre". -/
  | missingNames
  /-- 404: "El archivo original no existe.". -/
  | oldBlobMissing
  /-- 400: "Ya existe un archivo físico con ese nuevo nombre.". -/
  | newBlobExists
  /-- 404: "Error: El archivo no se encontró en la base de datos.". -/
  | oldRecordMissing
  /-- 400: "Ya existe un registro en la DB con ese nuevo nombre.". -/
  | newRecordExists
  /-- 200: "Archivo renombrado a ...". -/
  | renamed (final_new_name : String)
  /-- 500 after the compensation: "Error al actualizar la DB: ...
  Se revirtió el cambio en el disco.". -/
  | dbError
deriving DecidableEq, Repr

/-- The `/rename` handler (`rename_file` in `src/files.py`).  The JSON fields
`old_name` and `new_name` arrive as optional strings; `commitOk` injects
success or failure of the metadata commit.  The physical `os.rename` between
two validated paths is modelled as succeeding (its source-level generic
except-path is not failure-injected here). -/
def rename_file (sanitize : String → String) (uid : Nat)
    (old_name? new_name? : Option String) (commitOk : Bool) (s : AppState) :
    RenameResult × AppState :=
  if falsy old_name? || falsy new_name? then (RenameResult.missingNames, s)
  else
    let old_name := old_name?.getD ""
    let final_new_name := finalNewName sanitize (new_name?.getD "")
    if (blobLookup s.blobs old_name).isSome = false then (RenameResult.oldBlobMissing, s)
    else if (blobLookup s.blobs final_new_name).isSome then (RenameResult.newBlobExists, s)
    else if (s.db.archivos.find? (fun a => a.nombre == old_name)).isSome = false then
      (RenameResult.oldRecordMissing, s)
    else if (s.db.archivos.find? (fun a => a.nombre == final_new_name)).isSome then
      (RenameResult.newRecordExists, s)
    else
      let blobs1 := blobRenameOp s.blobs old_name final_new_name
      if commitOk then
        (RenameResult.renamed final_new_name,
         { db := { s.db with
                   archivos := renameFirstArchivo old_name final_new_name s.db.archivos },
           blobs := blobs1 })
      else
        (RenameResult.dbError,
         { db := s.db, blobs := blobRenameOp blobs1 final_new_name old_name })

/-- Number of `Curso` rows for a (teacher, subject-name, period) triple; a row
counts when some `Materia` row carries its `materia_id` and the subject name. -/
def tripleMatch (materias : List Materia) (uid : Nat) (subj per : String) (c : Curso) : Bool :=
  c.docente_id == uid && c.periodo == per &&
    materias.any (fun m => m.id == c.materia_id && m.nombre == subj)

/-- Count of `Curso` rows of a database matching a (teacher, subject, period)
triple. -/
def cursosForTriple (db : DB) (uid : Nat) (subj per : String) : Nat :=
  db.cursos.countP (tripleMatch db.materias uid subj per)

/-- Well-formedness of the Metadata Store that the schema's constraints and
primary-key sequences guarantee: subject ids and names unique, course triples
unique, and every stored id strictly below the corresponding sequence value. -/
def DBwf (db : DB) : Prop :=
  db.materias.Pairwise (fun a b => a.id ≠ b.id ∧ a.nombre ≠ b.nombre) ∧
  (∀ m ∈ db.materias, m.id < db.nextMateriaId) ∧
  db.cursos.Pairwise (fun a b =>
    ¬ (a.docente_id = b.docente_id ∧ a.materia_id = b.materia_id ∧ a.periodo = b.periodo)) ∧
  (∀ c ∈ db.cursos, c.materia_id < db.nextMateriaId)

/-! Blob Store lemmas. -/

theorem blobLookup_cons (p : String × Bytes) (rest : List (String × Bytes)) (k : String) :
    blobLookup (p :: rest) k = if p.1 = k then some p.2 else blobLookup rest k := by
  by_cases h : p.1 = k
  · simp [blobLookup, h]
  · simp [blobLookup, h]

theorem blobErase_cons (p : String × Bytes) (rest : List (String × Bytes)) (k : String) :
    blobErase (p :: rest) k =
      if p.1 = k then blobErase rest k else p :: blobErase rest k := by
  by_cases h : p.1 = k <;> simp [blobErase, List.filter_cons, h]

theorem blobLookup_erase (bs : List (String × Bytes)) (k k' : String) :
    blobLookup (blobErase bs k) k' = if k' = k then none else blobLookup bs k' := by
  induction bs with
  | nil => simp [blobLookup, blobErase]
  | cons p rest ih =>
    rw [blobErase_cons]
    by_cases h1 : p.1 = k
    · rw [if_pos h1, ih, blobLookup_cons]
      by_cases h2 : k' = k
      · simp [h2]
      · have hp : p.1 ≠ k' := by rw [h1]; exact fun he => h2 he.symm
        simp [h2, hp]
    · rw [if_neg h1, blobLookup_cons, ih, blobLookup_cons]
      by_cases h2 : k' = k
      · have hp : p.1 ≠ k' := by rw [h2]; exact h1
        simp [h2, hp, h1]
      · simp [h2]

theorem blobLookup_append (l1 l2 : List (String × Bytes)) (k : String) :
    blobLookup (l1 ++ l2) k = (blobLookup l1 k).or (blobLookup l2 k) := by
  simp only [blobLookup, List.find?_append]
  cases l1.find? (fun p => p.1 == k) <;> simp

theorem blobLookup_save (bs : List (String × Bytes)) (k : String) (v : Bytes) (k' : String) :
    blobLookup (blobSave bs k v) k' = if k' = k then some v else blobLookup bs k' := by
  unfold blobSave
  rw [blobLookup_append, blobLookup_erase]
  by_cases h : k' = k
  · simp [h, blobLookup_cons]
  · have h2 : k ≠ k' := fun he => h he.symm
    simp [h, h2, blobLookup_cons, blobLookup]

theorem blobErase_of_lookup_none (bs : List (String × Bytes)) (k : String)
    (h : blobLookup bs k = none) : blobErase bs k = bs := by
  induction bs with
  | nil => rfl
  | cons p rest ih =>
    rw [blobLookup_cons] at h
    by_cases h1 : p.1 = k
    · rw [if_pos h1] at h; exact absurd h (by simp)
    · rw [if_neg h1] at h
      rw [blobErase_cons, if_neg h1, ih h]

theorem blobErase_append (l1 l2 : List (String × Bytes)) (k : String) :
    blobErase (l1 ++ l2) k = blobErase l1 k ++ blobErase l2 k := by
  simp [blobErase, List.filter_append]

theorem blobRenameOp_of_lookup (bs : List (String × Bytes)) (old new : String) (v : Bytes)
    (h : blobLookup bs old = some v) :
    blobRenameOp bs old new = blobSave (blobErase bs old) new v := by
  unfold blobRenameOp
  rw [h]

theorem blobErase_save_self (bs : List (String × Bytes)) (k : String) (v : Bytes) :
    blobErase (blobSave bs k v) k = blobErase bs k := by
  unfold blobSave
  rw [blobErase_append]
  have h2 : blobErase [(k, v)] k = [] := by simp [blobErase]
  rw [h2, List.append_nil]
  apply blobErase_of_lookup_none
  rw [blobLookup_erase]
  simp

/-! Concrete states used by witnesses and counterexamples. -/

/-- Empty database whose primary-key sequences start at 1. -/
def dbEmpty : DB :=
  { docentes := [], materias := [], cursos := [], archivos := [],
    nextMateriaId := 1, nextCursoId := 1 }

/-- Empty system state. -/
def stEmpty : AppState := { db := dbEmpty, blobs := [] }

/-- State with a metadata record "y.pdf" but no blob. -/
def stRecordOnly : AppState :=
  { db := { dbEmpty with
            archivos := [{ nombre := "y.pdf", fecha_subida := 0, docente_id := 1, curso_id := 1 }] },
    blobs := [] }

/-- State with a pre-existing blob "a.pdf" and no metadata. -/
def stC1 : AppState := { db := dbEmpty, blobs := [("a.pdf", [1])] }

/-- State with blob "A.pdf" and its matching metadata record. -/
def stC2 : AppState :=
  { db := { dbEmpty with
            archivos := [{ nombre := "A.pdf", fecha_subida := 0, docente_id := 1, curso_id := 1 }] },
    blobs := [("A.pdf", [7])] }

/-! Claim theorems: upload failure path (C1). -/

/-- C1 counterexample: a blob "a.pdf" with content `[1]` exists before the
upload; an upload of "a.pdf" whose metadata commit fails leaves a state
different from the pre-operation one (the pre-existing blob was deleted by
the rollback), refuting "the state after the failed upload equals the state
before it". -/
theorem upload_failure_destroys_preexisting_blob :
    (upload (fun n => n) 1 0 (some ("a.pdf", [2])) (some "M") (some "P") false stC1).2 ≠ stC1 ∧
    blobLookup (upload (fun n => n) 1 0 (some ("a.pdf", [2])) (some "M") (some "P")
      false stC1).2.blobs "a.pdf" = none ∧
    blobLookup stC1.blobs "a.pdf" = some [1] := by
  refine ⟨by decide, by decide, by decide⟩

/-- C1 (amended): when the metadata commit of an otherwise valid upload
fails, all metadata changes are rolled back, the blob under the sanitized
filename is deleted (so no orphan blob is left), and every other blob is
untouched; the pre-operation state is restored exactly when no blob of the
sanitized filename existed before the upload — a pre-existing blob of that
name is deleted rather than restored. -/
theorem upload_rollback (sanitize : String → String) (uid now : Nat)
    (fname : String) (payload : Bytes) (m? p? : Option String) (s : AppState)
    (hf : fname ≠ "") (hm : falsy m? = false) (hp : falsy p? = false) :
    (upload sanitize uid now (some (fname, payload)) m? p? false s).1 = UploadResult.dbError ∧
    (upload sanitize uid now (some (fname, payload)) m? p? false s).2.db = s.db ∧
    blobLookup (upload sanitize uid now (some (fname, payload)) m? p? false s).2.blobs
      (sanitize fname) = none ∧
    (∀ k, k ≠ sanitize fname →
      blobLookup (upload sanitize uid now (some (fname, payload)) m? p? false s).2.blobs k =
        blobLookup s.blobs k) ∧
    (blobLookup s.blobs (sanitize fname) = none →
      (upload sanitize uid now (some (fname, payload)) m? p? false s).2 = s) := by
  have hred : upload sanitize uid now (some (fname, payload)) m? p? false s =
      (UploadResult.dbError,
       { db := s.db,
         blobs := blobErase (blobSave s.blobs (sanitize fname) payload) (sanitize fname) }) := by
    simp [upload, hf, hm, hp]
  rw [hred]
  refine ⟨rfl, rfl, ?_, ?_, ?_⟩
  · rw [blobErase_save_self, blobLookup_erase]
    simp
  · intro k hk
    rw [blobErase_save_self, blobLookup_erase, if_neg hk]
  · intro h0
    rw [blobErase_save_self, blobErase_of_lookup_none _ _ h0]

/-- C1 witness for the amended theorem: a failed upload into the empty state
restores the empty state. -/
theorem upload_rollback_witness :
    (upload (fun n => n) 1 0 (some ("a.pdf", [1])) (some "M") (some "P") false stEmpty).2 =
      stEmpty :=
  (upload_rollback (fun n => n) 1 0 "a.pdf" [1] (some "M") (some "P") stEmpty
    (by decide) (by decide) (by decide)).2.2.2.2 (by decide)

/-! Claim theorems: upload input validation (C5). -/

/-- C5 counterexample: an upload whose subject field is the whitespace-only
string " " (empty after trimming) is not rejected — it succeeds and mutates
the state, refuting "a subject or period that is empty after trimming
whitespace is rejected with a client error before any mutation". -/
theorem upload_accepts_whitespace_subject :
    (upload (fun n => n) 1 0 (some ("a.pdf", [1])) (some " ") (some "P") true stEmpty).1 =
      UploadResult.ok "Archivo subido y asignado a  - P." ∧
    (upload (fun n => n) 1 0 (some ("a.pdf", [1])) (some " ") (some "P") true stEmpty).2 ≠
      stEmpty := by
  refine ⟨by decide, by decide⟩

/-- C5 (amended): an upload with a missing payload, an empty originating
filename, or a missing or empty (pre-trim) subject or period field is
rejected with the corresponding client error before any filesystem or
metadata mutation (the state is returned unchanged); whitespace-only
subject/period values pass this validation. -/
theorem upload_validation (sanitize : String → String) (uid now : Nat)
    (file? : Option (String × Bytes)) (m? p? : Option String) (commitOk : Bool)
    (s : AppState) :
    (file? = none →
      upload sanitize uid now file? m? p? commitOk s = (UploadResult.missingFile, s)) ∧
    (∀ fname payload, file? = some (fname, payload) → fname = "" →
      upload sanitize uid now file? m? p? commitOk s = (UploadResult.missingFile, s)) ∧
    (∀ fname payload, file? = some (fname, payload) → fname ≠ "" →
      (falsy m? || falsy p?) = true →
      upload sanitize uid now file? m? p? commitOk s = (UploadResult.missingData, s)) := by
  refine ⟨?_, ?_, ?_⟩
  · intro h; rw [h]; rfl
  · intro fname payload h he; rw [h]; simp [upload, he]
  · intro fname payload h hne hfa; rw [h]; simp [upload, hne, hfa]

/-- C5 witness: a missing subject field is rejected with the client error and
no mutation. -/
theorem upload_validation_witness :
    upload (fun n => n) 1 0 (some ("a.pdf", [1])) none (some "P") true stEmpty =
      (UploadResult.missingData, stEmpty) :=
  (upload_validation (fun n => n) 1 0 (some ("a.pdf", [1])) none (some "P") true
    stEmpty).2.2 "a.pdf" [1] rfl (by decide) (by decide)

/-! Claim theorems: delete (C3, C4). -/

/-- C3 counterexample: deleting a filename for which neither a record nor a
blob exists produces exactly the same response — message and 202 status — as
the partial-success case (record present, blob absent), refuting "a not-found
outcome, distinct from both full success and partial success". -/
theorem delete_neither_same_as_partial :
    (delete_file 1 "x.pdf" stEmpty).1 = (delete_file 1 "y.pdf" stRecordOnly).1 ∧
    (delete_file 1 "x.pdf" stEmpty).1 =
      ("Registro eliminado, pero el archivo físico no fue encontrado.", 202) := by
  refine ⟨by decide, by decide⟩

/-- C3 (amended): a delete request for a filename with neither a metadata
record nor a blob returns the partial-success outcome (202, "Registro
eliminado, pero el archivo físico no fue encontrado.") — the same outcome as
when a record exists but the blob is missing — and leaves the state
unchanged; there is no distinct not-found outcome. -/
theorem delete_neither_partial_outcome (uid : Nat) (fn : String) (s : AppState)
    (hrec : s.db.archivos.find? (fun a => a.nombre == fn) = none)
    (hblob : blobLookup s.blobs fn = none) :
    delete_file uid fn s =
      (("Registro eliminado, pero el archivo físico no fue encontrado.", 202), s) := by
  simp [delete_file, hrec, hblob]

/-- C3 witness for the amended theorem. -/
theorem delete_neither_partial_outcome_witness :
    delete_file 1 "x.pdf" stEmpty =
      (("Registro eliminado, pero el archivo físico no fue encontrado.", 202), stEmpty) :=
  delete_neither_partial_outcome 1 "x.pdf" stEmpty (by decide) (by decide)

/-- C4: in every delete, the metadata record with the given filename (if any)
is deleted regardless of the blob outcome; when the blob exists the response
is full success (200) and the blob is removed; when the blob does not exist
the response is the distinct partial-success signal (202) and the Blob Store
is untouched. -/
theorem delete_file_spec (uid : Nat) (fn : String) (s : AppState) :
    (delete_file uid fn s).2.db.archivos =
      s.db.archivos.eraseP (fun a => a.nombre == fn) ∧
    ((blobLookup s.blobs fn).isSome →
      (delete_file uid fn s).1 = ("Archivo eliminado correctamente.", 200) ∧
      blobLookup (delete_file uid fn s).2.blobs fn = none) ∧
    (blobLookup s.blobs fn = none →
      (delete_file uid fn s).1 =
        ("Registro eliminado, pero el archivo físico no fue encontrado.", 202) ∧
      (delete_file uid fn s).2.blobs = s.blobs) := by
  refine ⟨?_, ?_, ?_⟩
  · cases hfind : s.db.archivos.find? (fun a => a.nombre == fn) with
    | some a =>
      cases hb : blobLookup s.blobs fn with
      | some c => simp [delete_file, hfind, hb]
      | none => simp [delete_file, hfind, hb]
    | none =>
      have hall := List.find?_eq_none.mp hfind
      cases hb : blobLookup s.blobs fn with
      | some c => simp [delete_file, hfind, hb, List.eraseP_of_forall_not hall]
      | none => simp [delete_file, hfind, hb, List.eraseP_of_forall_not hall]
  · intro hb
    obtain ⟨c, hc⟩ := Option.isSome_iff_exists.mp hb
    constructor
    · simp [delete_file, hc]
    · simp [delete_file, hc, blobLookup_erase]
  · intro hb
    constructor
    · simp [delete_file, hb]
    · simp [delete_file, hb]

/-- C4 witness: deleting a file whose record exists but whose blob is absent
yields the partial-success response. -/
theorem delete_file_spec_witness :
    (delete_file 1 "y.pdf" stRecordOnly).1 =
      ("Registro eliminado, pero el archivo físico no fue encontrado.", 202) :=
  ((delete_file_spec 1 "y.pdf" stRecordOnly).2.2 (by decide)).1

/-! Claim theorems: identity-independence of delete, rename, view, download (C10). -/

/-- C10: the delete, rename, view, and download handlers never consult the
authenticated teacher's identity (nor the record's owning teacher): for any
two teachers the response and the resulting state coincide, so any
authenticated teacher can view, rename, or delete any other teacher's file. -/
theorem handlers_ignore_identity (u1 u2 : Nat) (fn : String)
    (sanitize : String → String) (old? new? : Option String) (commitOk : Bool)
    (s : AppState) :
    delete_file u1 fn s = delete_file u2 fn s ∧
    rename_file sanitize u1 old? new? commitOk s =
      rename_file sanitize u2 old? new? commitOk s ∧
    view_file u1 fn s = view_file u2 fn s ∧
    download_file u1 fn s = download_file u2 fn s :=
  ⟨rfl, rfl, rfl, rfl⟩

/-! Claim theorems: rename preconditions (C6) and rename compensation (C2). -/

/-- C6: each of the four ordered rename preconditions — old blob missing, new
blob name already on disk, old metadata record missing, new filename already
used by a record — fails with its own distinct error and leaves the state
completely unchanged. -/
theorem rename_preconditions (sanitize : String → String) (uid : Nat)
    (old new : String) (commitOk : Bool) (s : AppState)
    (hone : old ≠ "") (hnne : new ≠ "") :
    (blobLookup s.blobs old = none →
      rename_file sanitize uid (some old) (some new) commitOk s =
        (RenameResult.oldBlobMissing, s)) ∧
    ((blobLookup s.blobs old).isSome →
      (blobLookup s.blobs (finalNewName sanitize new)).isSome →
      rename_file sanitize uid (some old) (some new) commitOk s =
        (RenameResult.newBlobExists, s)) ∧
    ((blobLookup s.blobs old).isSome →
      blobLookup s.blobs (finalNewName sanitize new) = none →
      s.db.archivos.find? (fun a => a.nombre == old) = none →
      rename_file sanitize uid (some old) (some new) commitOk s =
        (RenameResult.oldRecordMissing, s)) ∧
    ((blobLookup s.blobs old).isSome →
      blobLookup s.blobs (finalNewName sanitize new) = none →
      (s.db.archivos.find? (fun a => a.nombre == old)).isSome →
      (s.db.archivos.find? (fun a => a.nombre == finalNewName sanitize new)).isSome →
      rename_file sanitize uid (some old) (some new) commitOk s =
        (RenameResult.newRecordExists, s)) := by
  refine ⟨?_, ?_, ?_, ?_⟩
  · intro h
    simp [rename_file, falsy, hone, hnne, h]
  · intro h1 h2
    simp [rename_file, falsy, hone, hnne, h1, h2]
  · intro h1 h2 h3
    simp [rename_file, falsy, hone, hnne, h1, h2, h3]
  · intro h1 h2 h3 h4
    simp [rename_file, falsy, hone, hnne, h1, h2, h3, h4]

/-- C6 witness: renaming when the old blob is missing fails with the old-blob
error and no state change. -/
theorem rename_preconditions_witness :
    rename_file (fun n => n) 1 (some "A.pdf") (some "B") true stEmpty =
      (RenameResult.oldBlobMissing, stEmpty) :=
  (rename_preconditions (fun n => n) 1 "A.pdf" "B" true stEmpty
    (by decide) (by decide)).1 (by decide)

/-- C2: when the metadata update of a rename fails after the physical rename
succeeded, the blob is renamed back before the error is reported: afterwards
the metadata is unchanged, the old-name blob exists with its original
content, the new-name blob does not exist, and every other blob is
untouched. -/
theorem rename_rollback (sanitize : String → String) (uid : Nat) (old new : String)
    (s : AppState) (c : Bytes) (a : Archivo)
    (hone : old ≠ "") (hnne : new ≠ "")
    (ho : blobLookup s.blobs old = some c)
    (hn : blobLookup s.blobs (finalNewName sanitize new) = none)
    (hro : s.db.archivos.find? (fun x => x.nombre == old) = some a)
    (hrn : s.db.archivos.find? (fun x => x.nombre == finalNewName sanitize new) = none) :
    (rename_file sanitize uid (some old) (some new) false s).1 = RenameResult.dbError ∧
    (rename_file sanitize uid (some old) (some new) false s).2.db = s.db ∧
    blobLookup (rename_file sanitize uid (some old) (some new) false s).2.blobs old =
      some c ∧
    blobLookup (rename_file sanitize uid (some old) (some new) false s).2.blobs
      (finalNewName sanitize new) = none ∧
    (∀ k, k ≠ old → k ≠ finalNewName sanitize new →
      blobLookup (rename_file sanitize uid (some old) (some new) false s).2.blobs k =
        blobLookup s.blobs k) := by
  have hne : finalNewName sanitize new ≠ old := by
    intro he
    rw [he, ho] at hn
    exact Option.noConfusion hn
  have hred : rename_file sanitize uid (some old) (some new) false s =
      (RenameResult.dbError,
       { db := s.db,
         blobs := blobRenameOp (blobRenameOp s.blobs old (finalNewName sanitize new))
           (finalNewName sanitize new) old }) := by
    simp [rename_file, falsy, hone, hnne, ho, hn, hro, hrn]
  have e1 : blobRenameOp s.blobs old (finalNewName sanitize new) =
      blobSave (blobErase s.blobs old) (finalNewName sanitize new) c :=
    blobRenameOp_of_lookup _ _ _ _ ho
  have hlook1 : blobLookup (blobSave (blobErase s.blobs old) (finalNewName sanitize new) c)
      (finalNewName sanitize new) = some c := by
    rw [blobLookup_save, if_pos rfl]
  have e2 : blobRenameOp
      (blobSave (blobErase s.blobs old) (finalNewName sanitize new) c)
      (finalNewName sanitize new) old =
      blobSave (blobErase (blobSave (blobErase s.blobs old) (finalNewName sanitize new) c)
        (finalNewName sanitize new)) old c :=
    blobRenameOp_of_lookup _ _ _ _ hlook1
  rw [hred, e1, e2]
  refine ⟨rfl, rfl, ?_, ?_, ?_⟩
  · rw [blobLookup_save, if_pos rfl]
  · rw [blobLookup_save, if_neg hne, blobLookup_erase, if_pos rfl]
  · intro k hko hkn
    rw [blobLookup_save, if_neg hko, blobLookup_erase, if_neg hkn,
      blobLookup_save, if_neg hkn, blobLookup_erase, if_neg hko]

/-- C2 witness: a rename of "A.pdf" to "B" whose metadata commit fails leaves
blob "A.pdf" with its original bytes and no blob "B.pdf". -/
theorem rename_rollback_witness :
    blobLookup (rename_file (fun n => n) 1 (some "A.pdf") (some "B") false stC2).2.blobs
      "A.pdf" = some [7] ∧
    blobLookup (rename_file (fun n => n) 1 (some "A.pdf") (some "B") false stC2).2.blobs
      (finalNewName (fun n => n) "B") = none := by
  have h := rename_rollback (fun n => n) 1 "A.pdf" "B" stC2 [7]
    { nombre := "A.pdf", fecha_subida := 0, docente_id := 1, curso_id := 1 }
    (by decide) (by decide) (by decide) (by decide) (by decide) (by decide)
  exact ⟨h.2.2.1, h.2.2.2.1⟩

/-! Lemmas about the lookup-or-create helpers and the in-place record update. -/

theorem resolveMateria_archivos (db : DB) (subj : String) :
    (resolveMateria db subj).2.archivos = db.archivos := by
  cases h : db.materias.find? (fun m => m.nombre == subj) <;>
    simp [resolveMateria, h]

theorem resolveMateria_cursos (db : DB) (subj : String) :
    (resolveMateria db subj).2.cursos = db.cursos := by
  cases h : db.materias.find? (fun m => m.nombre == subj) <;>
    simp [resolveMateria, h]

theorem resolveCurso_archivos (db : DB) (uid mid : Nat) (per : String) :
    (resolveCurso db uid mid per).2.archivos = db.archivos := by
  cases h : db.cursos.find? (fun c =>
      c.docente_id == uid && c.materia_id == mid && c.periodo == per) <;>
    simp [resolveCurso, h]

theorem resolveCurso_materias (db : DB) (uid mid : Nat) (per : String) :
    (resolveCurso db uid mid per).2.materias = db.materias := by
  cases h : db.cursos.find? (fun c =>
      c.docente_id == uid && c.materia_id == mid && c.periodo == per) <;>
    simp [resolveCurso, h]

theorem resolveCurso_curso (db : DB) (uid mid : Nat) (per : String) :
    (resolveCurso db uid mid per).1 ∈ (resolveCurso db uid mid per).2.cursos ∧
    (resolveCurso db uid mid per).1.docente_id = uid ∧
    (resolveCurso db uid mid per).1.materia_id = mid ∧
    (resolveCurso db uid mid per).1.periodo = per := by
  cases h : db.cursos.find? (fun c =>
      c.docente_id == uid && c.materia_id == mid && c.periodo == per) with
  | some c =>
    have hp := List.find?_some h
    have hm := List.mem_of_find?_eq_some h
    simp only [Bool.and_eq_true, beq_iff_eq] at hp
    simp only [resolveCurso, h]
    exact ⟨hm, hp.1.1, hp.1.2, hp.2⟩
  | none =>
    simp [resolveCurso, h]

theorem countP_updateFirstArchivo (fn : String) (now uid cid : Nat) (l : List Archivo) :
    (updateFirstArchivo fn now uid cid l).countP (fun a => a.nombre == fn) =
      l.countP (fun a => a.nombre == fn) := by
  induction l with
  | nil => rfl
  | cons b rest ih =>
    by_cases h : b.nombre = fn
    · simp [updateFirstArchivo, h, List.countP_cons]
    · simp [updateFirstArchivo, h, List.countP_cons, ih]

theorem mem_updateFirstArchivo (fn : String) (now uid cid : Nat) (l : List Archivo)
    (h : ∃ x, x ∈ l ∧ (x.nombre == fn) = true) :
    ∃ a ∈ updateFirstArchivo fn now uid cid l,
      a.nombre = fn ∧ a.fecha_subida = now ∧ a.docente_id = uid ∧ a.curso_id = cid := by
  induction l with
  | nil =>
    obtain ⟨x, hx, _⟩ := h
    cases hx
  | cons b rest ih =>
    by_cases hb : b.nombre = fn
    · refine ⟨{ b with fecha_subida := now, docente_id := uid, curso_id := cid },
        ?_, hb, rfl, rfl, rfl⟩
      simp [updateFirstArchivo, hb]
    · have h2 : ∃ x, x ∈ rest ∧ (x.nombre == fn) = true := by
        obtain ⟨x, hx, hpx⟩ := h
        cases hx with
        | head => rw [beq_iff_eq] at hpx; exact absurd hpx hb
        | tail _ hx2 => exact ⟨x, hx2, hpx⟩
      obtain ⟨a, ha, hprops⟩ := ih h2
      refine ⟨a, ?_, hprops⟩
      simp only [updateFirstArchivo, if_neg (by simp [hb] : ¬ (b.nombre == fn) = true)]
      exact List.mem_cons_of_mem _ ha

/-! Claim theorem: re-upload of an existing filename updates in place (C8). -/

/-- C8: a successful upload whose sanitized filename already names exactly one
FileRecord keeps the record count for that filename at exactly 1 and updates
that record's upload timestamp, owning teacher, and owning course in place;
the new owning course is a course row of the current teacher with the
trimmed period. -/
theorem upload_existing_record (sanitize : String → String) (uid now : Nat)
    (fn : String) (pl : Bytes) (m? p? : Option String) (s : AppState)
    (hf : fn ≠ "") (hm : falsy m? = false) (hp : falsy p? = false)
    (hcount : s.db.archivos.countP (fun a => a.nombre == sanitize fn) = 1) :
    (upload sanitize uid now (some (fn, pl)) m? p? true s).2.db.archivos.countP
      (fun a => a.nombre == sanitize fn) = 1 ∧
    ∃ a ∈ (upload sanitize uid now (some (fn, pl)) m? p? true s).2.db.archivos,
      a.nombre = sanitize fn ∧ a.fecha_subida = now ∧ a.docente_id = uid ∧
      ∃ c ∈ (upload sanitize uid now (some (fn, pl)) m? p? true s).2.db.cursos,
        a.curso_id = c.id ∧ c.docente_id = uid ∧ c.periodo = stripStr (p?.getD "") := by
  have hfb : (fn == "") = false := by simp [hf]
  have hfa : (falsy m? || falsy p?) = false := by simp [hm, hp]
  have hpos : 0 < s.db.archivos.countP (fun a => a.nombre == sanitize fn) := by
    rw [hcount]
    exact Nat.one_pos
  have hex : ∃ x ∈ s.db.archivos, (x.nombre == sanitize fn) = true :=
    List.countP_pos_iff.mp hpos
  have hex2 : ∃ x, x ∈ s.db.archivos ∧ (x.nombre == sanitize fn) = true := by
    obtain ⟨x, h1, h2⟩ := hex
    exact ⟨x, h1, h2⟩
  have harch : (resolveCurso (resolveMateria s.db (stripStr (m?.getD ""))).2 uid
      (resolveMateria s.db (stripStr (m?.getD ""))).1.id
      (stripStr (p?.getD ""))).2.archivos = s.db.archivos := by
    rw [resolveCurso_archivos, resolveMateria_archivos]
  have hfind : ((resolveCurso (resolveMateria s.db (stripStr (m?.getD ""))).2 uid
      (resolveMateria s.db (stripStr (m?.getD ""))).1.id
      (stripStr (p?.getD ""))).2.archivos.find?
        (fun a => a.nombre == sanitize fn)).isSome := by
    rw [harch]
    exact List.find?_isSome.mpr hex2
  have hred : (upload sanitize uid now (some (fn, pl)) m? p? true s).2 =
      { db := { (resolveCurso (resolveMateria s.db (stripStr (m?.getD ""))).2 uid
                  (resolveMateria s.db (stripStr (m?.getD ""))).1.id
                  (stripStr (p?.getD ""))).2 with
                archivos := updateFirstArchivo (sanitize fn) now uid
                  (resolveCurso (resolveMateria s.db (stripStr (m?.getD ""))).2 uid
                    (resolveMateria s.db (stripStr (m?.getD ""))).1.id
                    (stripStr (p?.getD ""))).1.id
                  s.db.archivos },
        blobs := blobSave s.blobs (sanitize fn) pl } := by
    simp [upload, hfb, hfa, harch, hfind]
    intro hall
    obtain ⟨x, hx, hpx⟩ := hex2
    rw [beq_iff_eq] at hpx
    exact absurd hpx (hall x hx)
  constructor
  · rw [hred]
    show (updateFirstArchivo (sanitize fn) now uid _ s.db.archivos).countP
      (fun a => a.nombre == sanitize fn) = 1
    rw [countP_updateFirstArchivo]
    exact hcount
  · rw [hred]
    obtain ⟨a, ha, hname, hfecha, hdoc, hcid⟩ :=
      mem_updateFirstArchivo (sanitize fn) now uid
        (resolveCurso (resolveMateria s.db (stripStr (m?.getD ""))).2 uid
          (resolveMateria s.db (stripStr (m?.getD ""))).1.id
          (stripStr (p?.getD ""))).1.id
        s.db.archivos hex2
    obtain ⟨hcmem, hcdoc, hcmid, hcper⟩ :=
      resolveCurso_curso (resolveMateria s.db (stripStr (m?.getD ""))).2 uid
        (resolveMateria s.db (stripStr (m?.getD ""))).1.id (stripStr (p?.getD ""))
    exact ⟨a, ha, hname, hfecha, hdoc,
      (resolveCurso (resolveMateria s.db (stripStr (m?.getD ""))).2 uid
        (resolveMateria s.db (stripStr (m?.getD ""))).1.id
        (stripStr (p?.getD ""))).1, hcmem, hcid, hcdoc, hcper⟩

/-- State with exactly one record "a.pdf" (and no blob), for the C8 witness. -/
def stC8 : AppState :=
  { db := { dbEmpty with
            archivos := [{ nombre := "a.pdf", fecha_subida := 0, docente_id := 5, curso_id := 9 }] },
    blobs := [] }

/-- C8 witness: re-uploading "a.pdf" keeps the record count at 1. -/
theorem upload_existing_record_witness :
    (upload (fun n => n) 1 3 (some ("a.pdf", [1])) (some "M") (some "P") true
      stC8).2.db.archivos.countP (fun a => a.nombre == (fun n => n) "a.pdf") = 1 :=
  (upload_existing_record (fun n => n) 1 3 "a.pdf" [1] (some "M") (some "P") stC8
    (by decide) (by decide) (by decide) (by decide)).1

/-! Sorting lemmas for the `/list` ordering. -/

theorem mem_insertByFecha (r a : FileRow) (l : List FileRow) :
    a ∈ insertByFecha r l ↔ a = r ∨ a ∈ l := by
  induction l with
  | nil => simp [insertByFecha]
  | cons x xs ih =>
    by_cases h : x.fecha_subida ≤ r.fecha_subida
    · simp [insertByFecha, h, List.mem_cons]
    · simp only [insertByFecha, if_neg h, List.mem_cons, ih]
      tauto

theorem mem_sortByFechaDesc (a : FileRow) (l : List FileRow) :
    a ∈ sortByFechaDesc l ↔ a ∈ l := by
  induction l with
  | nil => simp [sortByFechaDesc]
  | cons x xs ih =>
    simp only [sortByFechaDesc, mem_insertByFecha, List.mem_cons, ih]

theorem pairwise_insertByFecha (r : FileRow) (l : List FileRow)
    (h : l.Pairwise (fun a b => b.fecha_subida ≤ a.fecha_subida)) :
    (insertByFecha r l).Pairwise (fun a b => b.fecha_subida ≤ a.fecha_subida) := by
  induction l with
  | nil => exact List.pairwise_singleton _ _
  | cons x xs ih =>
    rw [List.pairwise_cons] at h
    by_cases hle : x.fecha_subida ≤ r.fecha_subida
    · rw [insertByFecha, if_pos hle, List.pairwise_cons]
      refine ⟨?_, List.pairwise_cons.mpr h⟩
      intro y hy
      cases hy with
      | head => exact hle
      | tail _ hyt => exact Nat.le_trans (h.1 y hyt) hle
    · rw [insertByFecha, if_neg hle, List.pairwise_cons]
      refine ⟨?_, ih h.2⟩
      intro y hy
      rw [mem_insertByFecha] at hy
      cases hy with
      | inl he =>
        rw [he]
        exact Nat.le_of_lt (Nat.lt_of_not_le hle)
      | inr hyt => exact h.1 y hyt

theorem pairwise_sortByFechaDesc (l : List FileRow) :
    (sortByFechaDesc l).Pairwise (fun a b => b.fecha_subida ≤ a.fecha_subida) := by
  induction l with
  | nil => exact List.Pairwise.nil
  | cons x xs ih => exact pairwise_insertByFecha x (sortByFechaDesc xs) ih

/-! Claim theorem: list/search semantics (C9). -/

/-- C9: a list/search result contains exactly the joined FileRecord rows
whose blob exists in the Blob Store and — when a non-empty query is given —
whose filename, subject name, or period contains the (case-insensitively
compared) query substring, and the result is ordered by upload timestamp
descending. -/
theorem list_files_spec (search_raw : String) (s : AppState) :
    (∀ r, r ∈ list_files (some search_raw) s ↔
      (r ∈ joinRows s.db ∧ (blobLookup s.blobs r.nombre).isSome ∧
       (lowerStr search_raw ≠ "" → rowMatches (lowerStr search_raw) r))) ∧
    (list_files (some search_raw) s).Pairwise
      (fun a b => b.fecha_subida ≤ a.fecha_subida) := by
  constructor
  · intro r
    by_cases hq : lowerStr search_raw = ""
    · simp [list_files, hq, List.mem_filter, mem_sortByFechaDesc]
    · simp only [list_files, Option.getD_some]
      rw [if_neg (by simp [hq])]
      simp [List.mem_filter, mem_sortByFechaDesc, hq]
      tauto
  · exact (pairwise_sortByFechaDesc _).sublist (List.filter_sublist _)

/-- State with one joined, blob-backed record, for the C9 witness. -/
def stC9 : AppState :=
  { db := { docentes := [{ id := 1, nombre := "Ana" }],
            materias := [{ id := 1, nombre := "Algebra" }],
            cursos := [{ id := 1, docente_id := 1, materia_id := 1, periodo := "2024" }],
            archivos := [{ nombre := "a.pdf", fecha_subida := 5, docente_id := 1, curso_id := 1 }],
            nextMateriaId := 2, nextCursoId := 2 },
    blobs := [("a.pdf", [1])] }

/-- C9 witness: the joined row survives a case-insensitive search for "ALG". -/
theorem list_files_spec_witness :
    ({ nombre := "a.pdf", fecha_subida := 5, docente := "Ana", materia := "Algebra",
       periodo := "2024", etiqueta_curso := "Algebra (2024)" } : FileRow) ∈
      list_files (some "ALG") stC9 :=
  ((list_files_spec "ALG" stC9).1 _).mpr ⟨by decide, by decide, fun h => by decide⟩

/-! Counting and uniqueness lemmas for the Course get-or-create (C7). -/

theorem eq_of_mem_pairwise_nombre {ms : List Materia}
    (hpw : ms.Pairwise (fun a b => a.id ≠ b.id ∧ a.nombre ≠ b.nombre))
    {m1 m2 : Materia} (h1 : m1 ∈ ms) (h2 : m2 ∈ ms) (h : m1.nombre = m2.nombre) :
    m1 = m2 := by
  induction ms with
  | nil => cases h1
  | cons x xs ih =>
    rw [List.pairwise_cons] at hpw
    cases h1 with
    | head =>
      cases h2 with
      | head => rfl
      | tail _ h2t => exact absurd h (hpw.1 m2 h2t).2
    | tail _ h1t =>
      cases h2 with
      | head => exact absurd h.symm (hpw.1 m1 h1t).2
      | tail _ h2t => exact ih hpw.2 h1t h2t

theorem countP_eq_one_of_pairwise {α : Type} (p : α → Bool) (l : List α)
    (hpw : l.Pairwise (fun a b => ¬(p a = true ∧ p b = true)))
    (hex : ∃ a ∈ l, p a = true) : l.countP p = 1 := by
  induction l with
  | nil =>
    obtain ⟨a, ha, _⟩ := hex
    cases ha
  | cons x xs ih =>
    rw [List.pairwise_cons] at hpw
    by_cases hx : p x = true
    · rw [List.countP_cons_of_pos _ _ hx]
      have h0 : xs.countP p = 0 :=
        List.countP_eq_zero.mpr (fun a ha hpa => (hpw.1 a ha) ⟨hx, hpa⟩)
      rw [h0]
    · rw [List.countP_cons_of_neg _ _ hx]
      apply ih hpw.2
      obtain ⟨a, ha, hpa⟩ := hex
      cases ha with
      | head => exact absurd hpa hx
      | tail _ hat => exact ⟨a, hat, hpa⟩

theorem resolveMateria_spec (db : DB) (subj : String) (hwf : DBwf db) :
    DBwf (resolveMateria db subj).2 ∧
    (resolveMateria db subj).2.cursos = db.cursos ∧
    (resolveMateria db subj).1 ∈ (resolveMateria db subj).2.materias ∧
    (resolveMateria db subj).1.nombre = subj ∧
    (resolveMateria db subj).1.id < (resolveMateria db subj).2.nextMateriaId ∧
    (∀ mm ∈ (resolveMateria db subj).2.materias, mm.nombre = subj →
      mm = (resolveMateria db subj).1) := by
  obtain ⟨hpwM, hidM, hpwC, hmidC⟩ := hwf
  cases hm : db.materias.find? (fun m => m.nombre == subj) with
  | some m =>
    have hr : resolveMateria db subj = (m, db) := by simp [resolveMateria, hm]
    rw [hr]
    have hmem : m ∈ db.materias := List.mem_of_find?_eq_some hm
    have hname : m.nombre = subj := by
      have := List.find?_some hm
      rwa [beq_iff_eq] at this
    refine ⟨⟨hpwM, hidM, hpwC, hmidC⟩, rfl, hmem, hname, hidM m hmem, ?_⟩
    intro mm hmm hmname
    exact eq_of_mem_pairwise_nombre hpwM hmm hmem (hmname.trans hname.symm)
  | none =>
    have hr : resolveMateria db subj =
        ({ id := db.nextMateriaId, nombre := subj },
         { db with
           materias := db.materias ++ [{ id := db.nextMateriaId, nombre := subj }]
           nextMateriaId := db.nextMateriaId + 1 }) := by
      simp [resolveMateria, hm]
    rw [hr]
    have hnames : ∀ mm ∈ db.materias, mm.nombre ≠ subj := by
      intro mm hmm he
      exact absurd (by rw [he]; exact beq_self_eq_true subj) (List.find?_eq_none.mp hm mm hmm)
    refine ⟨⟨?_, ?_, hpwC, ?_⟩, rfl, ?_, rfl, Nat.lt_succ_self _, ?_⟩
    · rw [List.pairwise_append]
      refine ⟨hpwM, List.pairwise_singleton _ _, ?_⟩
      intro a ha b hb
      rw [List.mem_singleton] at hb
      subst hb
      exact ⟨Nat.ne_of_lt (hidM a ha), hnames a ha⟩
    · intro mm hmm
      rw [List.mem_append] at hmm
      cases hmm with
      | inl h => exact Nat.lt_succ_of_lt (hidM mm h)
      | inr h =>
        rw [List.mem_singleton] at h
        subst h
        exact Nat.lt_succ_self _
    · intro c hc
      exact Nat.lt_succ_of_lt (hmidC c hc)
    · simp
    · intro mm hmm hmname
      rw [List.mem_append] at hmm
      cases hmm with
      | inl h => exact absurd hmname (hnames mm h)
      | inr h => rwa [List.mem_singleton] at h

theorem resolveCurso_spec (db1 : DB) (uid mid : Nat) (per : String)
    (hwf : DBwf db1) (hmid : mid < db1.nextMateriaId) :
    DBwf (resolveCurso db1 uid mid per).2 ∧
    (resolveCurso db1 uid mid per).2.materias = db1.materias ∧
    (resolveCurso db1 uid mid per).2.cursos.countP
      (fun c => c.docente_id == uid && c.materia_id == mid && c.periodo == per) = 1 := by
  obtain ⟨hpwM, hidM, hpwC, hmidC⟩ := hwf
  cases hc : db1.cursos.find? (fun c =>
      c.docente_id == uid && c.materia_id == mid && c.periodo == per) with
  | some c =>
    have hr : resolveCurso db1 uid mid per = (c, db1) := by simp [resolveCurso, hc]
    rw [hr]
    refine ⟨⟨hpwM, hidM, hpwC, hmidC⟩, rfl, ?_⟩
    apply countP_eq_one_of_pairwise
    · apply hpwC.imp
      intro a b hab hpab
      obtain ⟨hpa, hpb⟩ := hpab
      simp only [Bool.and_eq_true, beq_iff_eq] at hpa hpb
      exact hab ⟨hpa.1.1.trans hpb.1.1.symm, hpa.1.2.trans hpb.1.2.symm,
        hpa.2.trans hpb.2.symm⟩
    · have hpc := List.find?_some hc
      exact ⟨c, List.mem_of_find?_eq_some hc, hpc⟩
  | none =>
    have hr : resolveCurso db1 uid mid per =
        ({ id := db1.nextCursoId, docente_id := uid, materia_id := mid, periodo := per },
         { db1 with
           cursos := db1.cursos ++
             [{ id := db1.nextCursoId, docente_id := uid, materia_id := mid, periodo := per }]
           nextCursoId := db1.nextCursoId + 1 }) := by
      simp [resolveCurso, hc]
    rw [hr]
    have hnone := List.find?_eq_none.mp hc
    refine ⟨⟨hpwM, hidM, ?_, ?_⟩, rfl, ?_⟩
    · rw [List.pairwise_append]
      refine ⟨hpwC, List.pairwise_singleton _ _, ?_⟩
      intro a ha b hb
      rw [List.mem_singleton] at hb
      subst hb
      rintro ⟨h1, h2, h3⟩
      exact hnone a ha (by
        simp only [Bool.and_eq_true, beq_iff_eq]
        exact ⟨⟨h1, h2⟩, h3⟩)
    · intro c hcm
      rw [List.mem_append] at hcm
      cases hcm with
      | inl h => exact hmidC c h
      | inr h =>
        rw [List.mem_singleton] at h
        subst h
        exact hmid
    · rw [List.countP_append, List.countP_eq_zero.mpr hnone]
      simp

theorem tripleMatch_char (materias : List Materia) (uid : Nat) (subj per : String)
    (m : Materia) (hmem : m ∈ materias) (hname : m.nombre = subj)
    (huniq : ∀ mm ∈ materias, mm.nombre = subj → mm = m) (c : Curso) :
    tripleMatch materias uid subj per c = true ↔
      (c.docente_id == uid && c.materia_id == m.id && c.periodo == per) = true := by
  unfold tripleMatch
  simp only [Bool.and_eq_true, beq_iff_eq, List.any_eq_true]
  constructor
  · rintro ⟨⟨hd, hp⟩, mm, hmm, hmmid, hmmname⟩
    refine ⟨⟨hd, ?_⟩, hp⟩
    rw [← hmmid, huniq mm hmm hmmname]
  · rintro ⟨⟨hd, hmid⟩, hp⟩
    refine ⟨⟨hd, hp⟩, m, hmem, ?_, hname⟩
    rw [hmid]

theorem resolve_curso_count (db : DB) (uid : Nat) (subj per : String) (hwf : DBwf db) :
    DBwf (resolveCurso (resolveMateria db subj).2 uid
      (resolveMateria db subj).1.id per).2 ∧
    cursosForTriple (resolveCurso (resolveMateria db subj).2 uid
      (resolveMateria db subj).1.id per).2 uid subj per = 1 := by
  obtain ⟨hwf1, _, hmem, hname, hlt, huniq⟩ := resolveMateria_spec db subj hwf
  obtain ⟨hwf2, hmat2, hcount⟩ := resolveCurso_spec (resolveMateria db subj).2 uid
    (resolveMateria db subj).1.id per hwf1 hlt
  refine ⟨hwf2, ?_⟩
  have hmem2 : (resolveMateria db subj).1 ∈ (resolveCurso (resolveMateria db subj).2 uid
      (resolveMateria db subj).1.id per).2.materias := by
    rw [hmat2]
    exact hmem
  have huniq2 : ∀ mm ∈ (resolveCurso (resolveMateria db subj).2 uid
      (resolveMateria db subj).1.id per).2.materias, mm.nombre = subj →
      mm = (resolveMateria db subj).1 := by
    rw [hmat2]
    exact huniq
  unfold cursosForTriple
  rw [List.countP_congr (fun c _ =>
    tripleMatch_char _ uid subj per (resolveMateria db subj).1 hmem2 hname huniq2 c)]
  exact hcount

theorem upload_success_curso_count (sanitize : String → String) (uid now : Nat)
    (fn : String) (pl : Bytes) (m? p? : Option String) (s : AppState)
    (hwf : DBwf s.db) (hf : fn ≠ "") (hm : falsy m? = false) (hp : falsy p? = false) :
    DBwf (upload sanitize uid now (some (fn, pl)) m? p? true s).2.db ∧
    cursosForTriple (upload sanitize uid now (some (fn, pl)) m? p? true s).2.db uid
      (stripStr (m?.getD "")) (stripStr (p?.getD "")) = 1 := by
  have hfb : (fn == "") = false := by simp [hf]
  have hfa : (falsy m? || falsy p?) = false := by simp [hm, hp]
  have hmat : (upload sanitize uid now (some (fn, pl)) m? p? true s).2.db.materias =
      (resolveCurso (resolveMateria s.db (stripStr (m?.getD ""))).2 uid
        (resolveMateria s.db (stripStr (m?.getD ""))).1.id
        (stripStr (p?.getD ""))).2.materias := by
    simp [upload, hfb, hfa]
  have hcur : (upload sanitize uid now (some (fn, pl)) m? p? true s).2.db.cursos =
      (resolveCurso (resolveMateria s.db (stripStr (m?.getD ""))).2 uid
        (resolveMateria s.db (stripStr (m?.getD ""))).1.id
        (stripStr (p?.getD ""))).2.cursos := by
    simp [upload, hfb, hfa]
  have hnm : (upload sanitize uid now (some (fn, pl)) m? p? true s).2.db.nextMateriaId =
      (resolveCurso (resolveMateria s.db (stripStr (m?.getD ""))).2 uid
        (resolveMateria s.db (stripStr (m?.getD ""))).1.id
        (stripStr (p?.getD ""))).2.nextMateriaId := by
    simp [upload, hfb, hfa]
  obtain ⟨hwf2, hcnt⟩ := resolve_curso_count s.db uid (stripStr (m?.getD ""))
    (stripStr (p?.getD "")) hwf
  constructor
  · unfold DBwf at hwf2 ⊢
    rw [hmat, hcur, hnm]
    exact hwf2
  · unfold cursosForTriple at hcnt ⊢
    rw [hmat, hcur]
    exact hcnt

/-! Claim theorem: Course uniqueness under repeated upload (C7). -/

/-- C7: starting from a well-formed Metadata Store, after two successful
uploads by the same teacher with the same trimmed subject name and the same
trimmed period, exactly one Course row for that (teacher, subject, period)
triple exists — already after the first upload there is exactly one, and the
second upload reuses it instead of creating a duplicate. -/
theorem upload_course_unique (sanitize : String → String) (uid now1 now2 : Nat)
    (fn1 fn2 : String) (pl1 pl2 : Bytes) (m1? p1? m2? p2? : Option String)
    (s : AppState)
    (hwf : DBwf s.db)
    (hf1 : fn1 ≠ "") (hm1 : falsy m1? = false) (hp1 : falsy p1? = false)
    (hf2 : fn2 ≠ "") (hm2 : falsy m2? = false) (hp2 : falsy p2? = false)
    (hms : stripStr (m2?.getD "") = stripStr (m1?.getD ""))
    (hps : stripStr (p2?.getD "") = stripStr (p1?.getD "")) :
    cursosForTriple (upload sanitize uid now1 (some (fn1, pl1)) m1? p1? true s).2.db uid
      (stripStr (m1?.getD "")) (stripStr (p1?.getD "")) = 1 ∧
    cursosForTriple (upload sanitize uid now2 (some (fn2, pl2)) m2? p2? true
        (upload sanitize uid now1 (some (fn1, pl1)) m1? p1? true s).2).2.db uid
      (stripStr (m1?.getD "")) (stripStr (p1?.getD "")) = 1 := by
  obtain ⟨hwf1, hcnt1⟩ :=
    upload_success_curso_count sanitize uid now1 fn1 pl1 m1? p1? s hwf hf1 hm1 hp1
  obtain ⟨_, hcnt2⟩ :=
    upload_success_curso_count sanitize uid now2 fn2 pl2 m2? p2?
      (upload sanitize uid now1 (some (fn1, pl1)) m1? p1? true s).2 hwf1 hf2 hm2 hp2
  rw [hms, hps] at hcnt2
  exact ⟨hcnt1, hcnt2⟩

/-- C7 witness: two uploads of different files under ("M", "P") into the
empty store leave exactly one matching Course row. -/
theorem upload_course_unique_witness :
    cursosForTriple (upload (fun n => n) 1 4 (some ("b.pdf", [2])) (some "M") (some "P") true
        (upload (fun n => n) 1 3 (some ("a.pdf", [1])) (some "M") (some "P") true
          stEmpty).2).2.db 1
      (stripStr ((some "M").getD "")) (stripStr ((some "P").getD "")) = 1 :=
  (upload_course_unique (fun n => n) 1 3 4 "a.pdf" "b.pdf" [1] [2]
    (some "M") (some "P") (some "M") (some "P") stEmpty
    (by constructor <;> simp [stEmpty, dbEmpty])
    (by decide) (by decide) (by decide) (by decide) (by decide) (by decide)
    rfl rfl).2
